import Mathlib

/-!
Shallow embedding of the Modelum blueprint editor
(`src/Modelum_Prototype.py`): the shape model (`Room`,
`BlueprintObject`), hit testing, the undo/redo history log and the
interactive operations the editor commits.

Coordinates are modelled over `ℚ`.  Python objects are mutated in
place and shared between the collections, the selection and the
history entries; we model this with an arena `shapes : Nat → ShapeState`
of object identities, so that `house`, `furnishings`, the selection and
history entries store identities (`Nat`) and `update_state` is a point
update of the arena.  Python list `append`/`pop` stacks are modelled
with the top of the stack at the head of a Lean list (the list is the
Python list reversed); `house` and `furnishings` keep Python's order
(insertion order, `append` at the tail, `remove` erases the first
occurrence, which for objects compared by identity is `List.erase`).
-/

namespace Modelum

/-- The state tuple `(name, x, y, width, height)` of a `Room` or a
`BlueprintObject`, as produced by `get_state` / consumed by
`update_state`. -/
structure ShapeState where
  name : String
  x : ℚ
  y : ℚ
  width : ℚ
  height : ℚ
deriving DecidableEq

/-- `Room.contains` / `BlueprintObject.contains`:
`self.x <= px <= self.x + self.width and self.y <= py <= self.y + self.height`. -/
def contains (s : ShapeState) (px py : ℚ) : Bool :=
  (s.x ≤ px && px ≤ s.x + s.width) && (s.y ≤ py && py ≤ s.y + s.height)

/-- The eight resize handles `Room.get_resize_handle` can return. -/
inductive Handle
  | topLeft | topRight | bottomLeft | bottomRight
  | top | bottom | left | right
deriving DecidableEq

/-- Python tests handle membership with substrings (`'right' in self.resize_handle`);
`hasRight h` mirrors `'right' in <handle string>`. -/
def hasRight : Handle → Bool
  | .topRight | .bottomRight | .right => true
  | _ => false

/-- Mirrors `'left' in <handle string>`. -/
def hasLeft : Handle → Bool
  | .topLeft | .bottomLeft | .left => true
  | _ => false

/-- Mirrors `'top' in <handle string>`. -/
def hasTop : Handle → Bool
  | .topLeft | .topRight | .top => true
  | _ => false

/-- Mirrors `'bottom' in <handle string>`. -/
def hasBottom : Handle → Bool
  | .bottomLeft | .bottomRight | .bottom => true
  | _ => false

/-- Whether a handle is one of the four corner handles. -/
def isCorner : Handle → Bool
  | .topLeft | .topRight | .bottomLeft | .bottomRight => true
  | _ => false

/-- `Room.get_resize_handle(px, py, tolerance)`: strict absolute-distance
tests against each boundary line, corners checked before edges, in the
source's order. -/
def get_resize_handle (s : ShapeState) (px py tolerance : ℚ) : Option Handle :=
  let l := s.x
  let r := s.x + s.width
  let b := s.y
  let t := s.y + s.height
  let on_l := decide (|px - l| < tolerance)
  let on_r := decide (|px - r| < tolerance)
  let on_b := decide (|py - b| < tolerance)
  let on_t := decide (|py - t| < tolerance)
  if on_t && on_l then some .topLeft
  else if on_t && on_r then some .topRight
  else if on_b && on_l then some .bottomLeft
  else if on_b && on_r then some .bottomRight
  else if on_t then some .top
  else if on_b then some .bottom
  else if on_l then some .left
  else if on_r then some .right
  else none

/-- A history entry `(kind, item, before_state, after_state)` as produced by
`log_action`.  The `item` field is the identity of the shared shape object;
add/delete entries carry the one non-`None` state snapshot, edit entries
carry both. -/
inductive Entry
  | add_room (item : Nat) (st : ShapeState)
  | delete_room (item : Nat) (st : ShapeState)
  | edit_room (item : Nat) (before after : ShapeState)
  | add_obj (item : Nat) (st : ShapeState)
  | delete_obj (item : Nat) (st : ShapeState)
  | edit_obj (item : Nat) (before after : ShapeState)
deriving DecidableEq

/-- The in-progress drag classification held in `self.current_action`
(`None` is modelled by `Option`). -/
inductive DragAction
  | drawing_room | moving | resizing_room
deriving DecidableEq

/-- The observable state of `BlueprintApp`.  `shapes` is the arena of
shape objects keyed by identity; `isRoom i` records whether identity `i`
was created as a `Room` (`true`) or a `BlueprintObject` (`false`);
`nextId` supplies the fresh identity for each newly constructed object.
`history` and `redo_stack` have the top of the Python stack at the head.
`xlim`/`ylim` are the view bounds `self.ax.get_xlim()/get_ylim()` read by
`paste_room`.  `ghost_rect` stores the ghost rectangle's anchor and its
signed width/height. -/
structure AppState where
  shapes : Nat → ShapeState
  isRoom : Nat → Bool
  house : List Nat
  furnishings : List Nat
  selected_item : Option Nat
  history : List Entry
  redo_stack : List Entry
  clipboard : Option ShapeState
  nextId : Nat
  xlim : ℚ × ℚ
  ylim : ℚ × ℚ
  current_action : Option DragAction
  action_start_xy : Option (ℚ × ℚ)
  ghost_rect : Option ((ℚ × ℚ) × ℚ × ℚ)
  original_state : Option ShapeState
  resize_handle : Option Handle
  object_to_add : Option String
  draw_mode_active : Bool

/-- `log_action`: `self.history.append(action); self.redo_stack.clear()`. -/
def log_action (s : AppState) (a : Entry) : AppState :=
  { s with history := a :: s.history, redo_stack := [] }

/-- `select_item`: sets `self.selected_item` (button/draw refresh is UI-only). -/
def select_item (s : AppState) (item : Option Nat) : AppState :=
  { s with selected_item := item }

/-- The inverse application step inside `undo` (the six-way `if`/`elif`
on the popped action). -/
def applyUndo (s : AppState) : Entry → AppState
  | .add_room i _ => { s with house := s.house.erase i }
  | .delete_room i st =>
      { s with house := s.house ++ [i], shapes := Function.update s.shapes i st }
  | .edit_room i before _ => { s with shapes := Function.update s.shapes i before }
  | .add_obj i _ => { s with furnishings := s.furnishings.erase i }
  | .delete_obj i st =>
      { s with furnishings := s.furnishings ++ [i],
               shapes := Function.update s.shapes i st }
  | .edit_obj i before _ => { s with shapes := Function.update s.shapes i before }

/-- The forward application step inside `redo`. -/
def applyRedo (s : AppState) : Entry → AppState
  | .add_room i _ => { s with house := s.house ++ [i] }
  | .delete_room i _ => { s with house := s.house.erase i }
  | .edit_room i _ after => { s with shapes := Function.update s.shapes i after }
  | .add_obj i _ => { s with furnishings := s.furnishings ++ [i] }
  | .delete_obj i _ => { s with furnishings := s.furnishings.erase i }
  | .edit_obj i _ after => { s with shapes := Function.update s.shapes i after }

/-- `undo`: no-op on an empty history; otherwise pop the entry, apply its
inverse and push it onto `redo_stack`. -/
def undo (s : AppState) : AppState :=
  match s.history with
  | [] => s
  | a :: rest =>
      let s' := applyUndo { s with history := rest } a
      { s' with redo_stack := a :: s'.redo_stack }

/-- `redo`: no-op on an empty redo stack; otherwise pop the entry, apply it
forward and push it back onto `history`. -/
def redo (s : AppState) : AppState :=
  match s.redo_stack with
  | [] => s
  | a :: rest =>
      let s' := applyRedo { s with redo_stack := rest } a
      { s' with history := a :: s'.history }

/-- `find_item_at(x, y)`: furnishings scanned in reverse insertion order
first, then rooms in reverse insertion order; first containing shape wins. -/
def find_item_at (s : AppState) (x y : ℚ) : Option Nat :=
  match s.furnishings.reverse.find? (fun i => contains (s.shapes i) x y) with
  | some o => some o
  | none => s.house.reverse.find? (fun i => contains (s.shapes i) x y)

/-- `copy_room`: when a `Room` is selected, snapshot its state into the
clipboard (by value). -/
def copy_room (s : AppState) : AppState :=
  match s.selected_item with
  | some i => if s.isRoom i then { s with clipboard := some (s.shapes i) } else s
  | none => s

/-- `paste_room`: no-op on an empty clipboard; otherwise construct a new
`Room` named `name + "(copy)"` with the clipboard's width/height at the
centre of the current view bounds, append it to `house`, commit an
`add_room` entry and select it. -/
def paste_room (s : AppState) : AppState :=
  match s.clipboard with
  | none => s
  | some cb =>
      let new_name := cb.name ++ "(copy)"
      let new_x := (s.xlim.1 + s.xlim.2) / 2
      let new_y := (s.ylim.1 + s.ylim.2) / 2
      let st : ShapeState := ⟨new_name, new_x, new_y, cb.width, cb.height⟩
      let i := s.nextId
      let s1 := { s with shapes := Function.update s.shapes i st,
                         isRoom := Function.update s.isRoom i true,
                         house := s.house ++ [i], nextId := i + 1 }
      select_item (log_action s1 (.add_room i st)) (some i)

/-- `prompt_add_room_precise`: the dialog result is `some st` when the user
submitted a validated tuple, `none` on cancel; a submitted tuple becomes a
new `Room` appended to `house` with an `add_room` entry. -/
def prompt_add_room_precise (s : AppState) (result : Option ShapeState) : AppState :=
  match result with
  | none => s
  | some st =>
      let i := s.nextId
      let s1 := { s with shapes := Function.update s.shapes i st,
                         isRoom := Function.update s.isRoom i true,
                         house := s.house ++ [i], nextId := i + 1 }
      log_action s1 (.add_room i st)

/-- The outcome of an edit-properties dialog: `submitted` with the
validated tuple, the `'delete'` sentinel, or cancelled (`None`). -/
inductive DialogResult
  | submitted (st : ShapeState)
  | delete
  | cancelled
deriving DecidableEq

/-- `prompt_edit_room_properties(room)` with the dialog's outcome as a
parameter: `'delete'` removes the room and logs `delete_room`;
a submitted tuple different from the old state is applied in place and
logged as `edit_room`; otherwise nothing changes. -/
def prompt_edit_room_properties (s : AppState) (room : Nat) (res : DialogResult) :
    AppState :=
  let old := s.shapes room
  match res with
  | .delete =>
      let s1 := log_action { s with house := s.house.erase room }
        (.delete_room room old)
      if s.selected_item = some room then select_item s1 none else s1
  | .submitted st =>
      if st ≠ old then
        log_action { s with shapes := Function.update s.shapes room st }
          (.edit_room room old st)
      else s
  | .cancelled => s

/-- `prompt_edit_object_properties(obj)`, symmetric over `furnishings`. -/
def prompt_edit_object_properties (s : AppState) (obj : Nat) (res : DialogResult) :
    AppState :=
  let old := s.shapes obj
  match res with
  | .delete =>
      let s1 := log_action { s with furnishings := s.furnishings.erase obj }
        (.delete_obj obj old)
      if s.selected_item = some obj then select_item s1 none else s1
  | .submitted st =>
      if st ≠ old then
        log_action { s with shapes := Function.update s.shapes obj st }
          (.edit_obj obj old st)
      else s
  | .cancelled => s

/-- `cancel_action(clear_draw_mode)`: discard the ghost, clear the pending
object token, optionally switch draw mode off, and force idle. -/
def cancel_action (s : AppState) (clear_draw_mode : Bool) : AppState :=
  { s with ghost_rect := none, object_to_add := none,
           draw_mode_active := if clear_draw_mode then false else s.draw_mode_active,
           current_action := none }

/-- `add_object_at(x, y)`: place a new `BlueprintObject` of the pending
template (width `w`, height `h` looked up in `object_templates`) centred at
the pointer, append it to `furnishings`, log `add_obj`, and cancel the
placement mode. -/
def add_object_at (s : AppState) (name : String) (w h x y : ℚ) : AppState :=
  let st : ShapeState := ⟨name, x - w / 2, y - h / 2, w, h⟩
  let i := s.nextId
  let s1 := { s with shapes := Function.update s.shapes i st,
                     isRoom := Function.update s.isRoom i false,
                     furnishings := s.furnishings ++ [i], nextId := i + 1 }
  cancel_action (log_action s1 (.add_obj i st)) true

/-- `delete_selected_item` with the confirmation dialog's answer as a
parameter: no selection or a declined confirmation leaves the state
untouched; otherwise the item is removed from its collection, a
`delete_room`/`delete_obj` entry is logged, and the selection is cleared. -/
def delete_selected_item (s : AppState) (confirmed : Bool) : AppState :=
  match s.selected_item with
  | none => s
  | some i =>
      if !confirmed then s
      else
        let old := s.shapes i
        let s1 :=
          if s.isRoom i then
            log_action { s with house := s.house.erase i } (.delete_room i old)
          else
            log_action { s with furnishings := s.furnishings.erase i }
              (.delete_obj i old)
        select_item s1 none

/-- `clear_blueprint(confirm)` with the confirmation dialog's answer as a
parameter: when confirmation is requested and declined nothing happens;
otherwise both collections and both history stacks are emptied and the
selection cleared. -/
def clear_blueprint (s : AppState) (confirm answer : Bool) : AppState :=
  if confirm && !answer then s
  else
    select_item { s with house := [], furnishings := [],
                         history := [], redo_stack := [] } none

/-- `generate_random_layout` with the confirmation answer and the sampled
`random.uniform` values as parameters: over existing content a declined
confirmation leaves the state untouched; otherwise the blueprint is cleared
without a second confirmation and the four template rooms are appended
(the bathroom's `y` reads `self.house[1].y + k_h`, i.e. the kitchen's). -/
def generate_random_layout (s : AppState) (answer : Bool)
    (lr_w lr_h k_w k_h k_y mbr_w mbr_h mbr_x b_w b_h : ℚ) : AppState :=
  if s.house ≠ [] && !answer then s
  else
    let s0 := clear_blueprint s false false
    let i := s0.nextId
    let living : ShapeState := ⟨"Living Room", 0, 0, lr_w, lr_h⟩
    let kitchen : ShapeState := ⟨"Kitchen", lr_w, k_y, k_w, k_h⟩
    let master : ShapeState := ⟨"Master Bedroom", mbr_x, lr_h, mbr_w, mbr_h⟩
    let bath : ShapeState := ⟨"Bathroom", lr_w, k_y + k_h, b_w, b_h⟩
    { s0 with
      shapes := fun j =>
        if j = i then living else if j = i + 1 then kitchen
        else if j = i + 2 then master else if j = i + 3 then bath
        else s0.shapes j,
      isRoom := fun j =>
        if j = i || j = i + 1 || j = i + 2 || j = i + 3 then true else s0.isRoom j,
      house := [i, i + 1, i + 2, i + 3],
      nextId := i + 4 }

/-- The `resizing_room` branch of `on_motion`: starting from the drag's
`original_state`, each side named by the active handle is reassigned with
the dimension floored at 1 (`nw = max(1, x - ox)` for the right edge,
`nw, nx = max(1, (ox + ow) - x), x` for the left edge, and symmetrically
vertically); sides not named keep the original values. -/
def resize_motion (os : ShapeState) (handle : Handle) (x y : ℚ) : ShapeState :=
  let nw₀ := if hasRight handle then max 1 (x - os.x) else os.width
  let nwx := if hasLeft handle then (max 1 ((os.x + os.width) - x), x) else (nw₀, os.x)
  let nh₀ := if hasTop handle then max 1 (y - os.y) else os.height
  let nhy := if hasBottom handle then (max 1 ((os.y + os.height) - y), y)
             else (nh₀, os.y)
  ⟨os.name, nwx.2, nhy.2, nwx.1, nhy.1⟩

/-- The drag branches of `on_motion` at pointer `(x, y)` (the object-ghost
preview and the idle cursor update touch no model state). -/
def on_motion (s : AppState) (x y : ℚ) : AppState :=
  match s.current_action, s.action_start_xy with
  | some .drawing_room, some (sx, sy) =>
      match s.ghost_rect with
      | some (anchor, _, _) => { s with ghost_rect := some (anchor, x - sx, y - sy) }
      | none => s
  | some .moving, some (sx, sy) =>
      match s.selected_item, s.original_state with
      | some i, some os =>
          let moved : ShapeState :=
            ⟨os.name, os.x + (x - sx), os.y + (y - sy), os.width, os.height⟩
          { s with shapes := Function.update s.shapes i moved }
      | _, _ => s
  | some .resizing_room, some _ =>
      match s.selected_item, s.original_state, s.resize_handle with
      | some i, some os, some handle =>
          { s with shapes := Function.update s.shapes i (resize_motion os handle x y) }
      | _, _, _ => s
  | _, _ => s

/-- Normalisation applied on releasing a drawn ghost: `x_start = min(sx, sx+w)`,
`y_start = min(sy, sy+h)`, dimensions `abs(w)`, `abs(h)`. -/
def normalized_room (name : String) (sx sy w h : ℚ) : ShapeState :=
  ⟨name, min sx (sx + w), min sy (sy + h), |w|, |h|⟩

/-- `on_release` with the name-dialog result as a parameter (`none` models a
cancelled `askstring`, `some ""` an empty submission — both falsy in
`if name:`).  In `drawing_room`, a ghost whose `abs` width and height both
exceed 1 is normalised into a new `Room` when a non-empty name is given;
the ghost is discarded in every case.  In `moving`/`resizing_room`, an
`edit_room`/`edit_obj` entry is logged exactly when the final state differs
from the drag's `original_state`.  All drag bookkeeping is cleared. -/
def on_release (s : AppState) (nameResult : Option String) : AppState :=
  match s.current_action with
  | none => s
  | some act =>
      let s1 :=
        match act with
        | .drawing_room =>
            match s.ghost_rect, s.action_start_xy with
            | some (_, w, h), some (sx, sy) =>
                let s2 :=
                  if |w| > 1 ∧ |h| > 1 then
                    match nameResult with
                    | some nm =>
                        if nm ≠ "" then
                          let nr := normalized_room nm sx sy w h
                          let i := s.nextId
                          let sa := { s with
                            shapes := Function.update s.shapes i nr,
                            isRoom := Function.update s.isRoom i true,
                            house := s.house ++ [i], nextId := i + 1 }
                          log_action sa (.add_room i nr)
                        else s
                    | none => s
                  else s
                { s2 with ghost_rect := none }
            | _, _ => s
        | .moving | .resizing_room =>
            match s.selected_item, s.original_state with
            | some i, some os =>
                if s.shapes i ≠ os then
                  log_action s
                    (if s.isRoom i then .edit_room i os (s.shapes i)
                     else .edit_obj i os (s.shapes i))
                else s
            | _, _ => s
      { s1 with current_action := none, original_state := none, resize_handle := none }

/-- The running total computed by the room loop in `draw_blueprint`:
`w, h = max(0.1, r.width), max(0.1, r.height); total_sqft += w * h`,
displayed in the `Total Area` label. -/
def draw_total_sqft (s : AppState) : ℚ :=
  s.house.foldl
    (fun total i =>
      total + max (1/10) (s.shapes i).width * max (1/10) (s.shapes i).height)
    0

/-- The app state at startup: empty collections, empty history, default
view bounds `(0, 50)` (the first draw of an empty blueprint). -/
def emptyState : AppState where
  shapes := fun _ => ⟨"", 0, 0, 0, 0⟩
  isRoom := fun _ => false
  house := []
  furnishings := []
  selected_item := none
  history := []
  redo_stack := []
  clipboard := none
  nextId := 0
  xlim := (0, 50)
  ylim := (0, 50)
  current_action := none
  action_start_xy := none
  ghost_rect := none
  original_state := none
  resize_handle := none
  object_to_add := none
  draw_mode_active := false

end Modelum

namespace Modelum

/-! ### Theorems -/

/-- C2: `log_action` pushes the committed entry onto the undo stack and
unconditionally empties the redo stack, so `redo()` right after any commit
is a no-op on the whole state. -/
theorem log_action_clears_redo (s : AppState) (e : Entry) :
    (log_action s e).history = e :: s.history ∧
    (log_action s e).redo_stack = [] ∧
    redo (log_action s e) = log_action s e := by
  refine ⟨rfl, rfl, ?_⟩
  simp [redo, log_action]

/-- A `find?` over a reversed list picks the last satisfying element. -/
theorem reverse_find_last {α : Type} (p : α → Bool) (l : List α) (a : α)
    (hp : p a = true) : (l ++ [a]).reverse.find? p = some a := by
  simp [List.reverse_append, List.find?_cons_of_pos _ hp]

/-- The early-return pair of loops in `find_item_at` is `Option.or` of the
two reverse scans. -/
theorem find_item_at_eq (s : AppState) (x y : ℚ) :
    find_item_at s x y =
      (s.furnishings.reverse.find? (fun i => contains (s.shapes i) x y)).or
        (s.house.reverse.find? (fun i => contains (s.shapes i) x y)) := by
  unfold find_item_at
  cases s.furnishings.reverse.find? (fun i => contains (s.shapes i) x y) <;> rfl

/-- C5: `find_item_at` returns a containing shape drawn from one of the two
collections (`none` exactly when nothing contains the point); any
containing furnishing preempts every room; the most recently added
furnishing wins among containing furnishings; and with no containing
furnishing the most recently added containing room wins. -/
theorem find_item_at_spec (s : AppState) (x y : ℚ) :
    (∀ j, find_item_at s x y = some j →
        contains (s.shapes j) x y = true ∧ (j ∈ s.furnishings ∨ j ∈ s.house)) ∧
    (find_item_at s x y = none ↔
        (∀ j ∈ s.furnishings, ¬contains (s.shapes j) x y = true) ∧
        (∀ j ∈ s.house, ¬contains (s.shapes j) x y = true)) ∧
    (∀ j ∈ s.furnishings, contains (s.shapes j) x y = true →
        ∃ o ∈ s.furnishings, find_item_at s x y = some o) ∧
    (∀ l j, s.furnishings = l ++ [j] → contains (s.shapes j) x y = true →
        find_item_at s x y = some j) ∧
    (∀ l j, s.house = l ++ [j] →
        (∀ o ∈ s.furnishings, ¬contains (s.shapes o) x y = true) →
        contains (s.shapes j) x y = true →
        find_item_at s x y = some j) := by
  refine ⟨?_, ?_, ?_, ?_, ?_⟩
  · intro j hj
    rw [find_item_at_eq] at hj
    cases hf : s.furnishings.reverse.find? (fun i => contains (s.shapes i) x y) with
    | some o =>
        rw [hf, Option.or] at hj
        cases hj
        have h1 := List.find?_some hf
        have h2 := List.mem_of_find?_eq_some hf
        exact ⟨by simpa using h1, Or.inl (by simpa using h2)⟩
    | none =>
        rw [hf] at hj
        simp only [Option.or] at hj
        have h1 := List.find?_some hj
        have h2 := List.mem_of_find?_eq_some hj
        exact ⟨by simpa using h1, Or.inr (by simpa using h2)⟩
  · rw [find_item_at_eq]
    cases hf : s.furnishings.reverse.find? (fun i => contains (s.shapes i) x y) with
    | some o =>
        rw [Option.or]
        constructor
        · intro h; cases h
        · rintro ⟨h1, _⟩
          have ho := List.mem_of_find?_eq_some hf
          have hpo := List.find?_some hf
          exact absurd (by simpa using hpo) (h1 o (by simpa using ho))
    | none =>
        simp only [Option.or]
        rw [List.find?_eq_none] at hf
        rw [List.find?_eq_none]
        constructor
        · intro h
          refine ⟨fun j hj => ?_, fun j hj => ?_⟩
          · simpa using hf j (by simpa using hj)
          · simpa using h j (by simpa using hj)
        · rintro ⟨_, h2⟩ j hj
          simpa using h2 j (by simpa using hj)
  · intro j hj hcont
    rw [find_item_at_eq]
    cases hf : s.furnishings.reverse.find? (fun i => contains (s.shapes i) x y) with
    | some o =>
        rw [Option.or]
        have := List.mem_of_find?_eq_some hf
        exact ⟨o, by simpa using this, rfl⟩
    | none =>
        rw [List.find?_eq_none] at hf
        exact absurd hcont (by simpa using hf j (by simpa using hj))
  · intro l j hfl hcont
    rw [find_item_at_eq, hfl, reverse_find_last _ _ _ (by simpa using hcont),
      Option.or]
  · intro l j hhl hnone hcont
    have hf : s.furnishings.reverse.find? (fun i => contains (s.shapes i) x y) = none := by
      rw [List.find?_eq_none]
      intro o ho
      simpa using hnone o (by simpa using ho)
    rw [find_item_at_eq, hf, hhl, reverse_find_last _ _ _ (by simpa using hcont)]
    rfl

/-- C6: a point strictly within the tolerance of a horizontal and of a
vertical boundary line always resolves to a corner handle, never to a
single edge handle, with the corner checks applied in the source's
priority order (`top-left`, `top-right`, `bottom-left`, `bottom-right`);
each of the four boundary-line tests is an independent absolute-distance
comparison. -/
theorem resize_handle_corner_priority (s : ShapeState) (px py tolerance : ℚ) :
    ((|px - s.x| < tolerance ∨ |px - (s.x + s.width)| < tolerance) →
     (|py - s.y| < tolerance ∨ |py - (s.y + s.height)| < tolerance) →
     ∃ c, get_resize_handle s px py tolerance = some c ∧ isCorner c = true) ∧
    (|py - (s.y + s.height)| < tolerance → |px - s.x| < tolerance →
        get_resize_handle s px py tolerance = some .topLeft) ∧
    (|py - (s.y + s.height)| < tolerance → |px - (s.x + s.width)| < tolerance →
        ¬|px - s.x| < tolerance →
        get_resize_handle s px py tolerance = some .topRight) ∧
    (|py - s.y| < tolerance → |px - s.x| < tolerance →
        ¬|py - (s.y + s.height)| < tolerance →
        get_resize_handle s px py tolerance = some .bottomLeft) ∧
    (|py - s.y| < tolerance → |px - (s.x + s.width)| < tolerance →
        ¬|py - (s.y + s.height)| < tolerance → ¬|px - s.x| < tolerance →
        get_resize_handle s px py tolerance = some .bottomRight) := by
  refine ⟨?_, ?_, ?_, ?_, ?_⟩
  · intro hx hy
    by_cases hl : |px - s.x| < tolerance <;>
      by_cases hr : |px - (s.x + s.width)| < tolerance <;>
      by_cases hb : |py - s.y| < tolerance <;>
      by_cases ht : |py - (s.y + s.height)| < tolerance <;>
      simp [get_resize_handle, hl, hr, hb, ht, isCorner] <;>
      tauto
  · intro ht hl
    simp [get_resize_handle, ht, hl]
  · intro ht hr hl
    simp [get_resize_handle, ht, hr, hl]
  · intro hb hl ht
    simp [get_resize_handle, hb, hl, ht]
  · intro hb hr ht hl
    simp [get_resize_handle, hb, hr, ht, hl]

/-- C3 counterexample: dragging the left edge of a `(0, 0, 10, 10)` room to
`x = 9.5` engages the 1-unit floor, and the resulting rectangle's right
edge sits at `10.5`, not at the original `10` — the opposite edge is not
held fixed for every pointer position, contrary to the claim. -/
theorem resize_left_clamp_moves_opposite_edge :
    ¬((resize_motion ⟨"A", 0, 0, 10, 10⟩ .left (19/2) 5).x +
        (resize_motion ⟨"A", 0, 0, 10, 10⟩ .left (19/2) 5).width =
      (0 : ℚ) + 10) := by
  norm_num [resize_motion, hasLeft, hasRight, hasTop, hasBottom]

/-- C3 (amended): while resizing, each edge named by the active handle is
adjusted independently and its dimension is floored at 1 so the rectangle
never inverts; for `right`/`top` handles the opposite edge is always
anchored, while for `left`/`bottom` handles the dragged edge follows the
pointer, which anchors the opposite edge exactly as long as the pointer
stays at least 1 unit inside it (once the floor engages, the whole
1-unit-wide rectangle follows the pointer instead).  Edges not named by
the handle are untouched. -/
theorem resize_motion_amended (os : ShapeState) (h : Handle) (x y : ℚ) :
    (hasRight h = true →
        (resize_motion os h x y).x = os.x ∧
        (resize_motion os h x y).width = max 1 (x - os.x)) ∧
    (hasLeft h = true →
        (resize_motion os h x y).x = x ∧
        (resize_motion os h x y).width = max 1 (os.x + os.width - x) ∧
        (x ≤ os.x + os.width - 1 →
          (resize_motion os h x y).x + (resize_motion os h x y).width =
            os.x + os.width)) ∧
    (hasTop h = true →
        (resize_motion os h x y).y = os.y ∧
        (resize_motion os h x y).height = max 1 (y - os.y)) ∧
    (hasBottom h = true →
        (resize_motion os h x y).y = y ∧
        (resize_motion os h x y).height = max 1 (os.y + os.height - y) ∧
        (y ≤ os.y + os.height - 1 →
          (resize_motion os h x y).y + (resize_motion os h x y).height =
            os.y + os.height)) ∧
    ((hasRight h = true ∨ hasLeft h = true) → 1 ≤ (resize_motion os h x y).width) ∧
    ((hasTop h = true ∨ hasBottom h = true) → 1 ≤ (resize_motion os h x y).height) ∧
    (hasRight h = false → hasLeft h = false →
        (resize_motion os h x y).x = os.x ∧
        (resize_motion os h x y).width = os.width) ∧
    (hasTop h = false → hasBottom h = false →
        (resize_motion os h x y).y = os.y ∧
        (resize_motion os h x y).height = os.height) := by
  have anchor : ∀ a b : ℚ, a ≤ b - 1 → a + max 1 (b - a) = b := by
    intro a b hab
    rw [max_eq_right (by linarith)]
    ring
  cases h <;>
    simp [resize_motion, hasRight, hasLeft, hasTop, hasBottom] <;>
    (repeat' constructor) <;>
    first
      | exact le_max_left _ _
      | (intro hle; exact anchor _ _ hle)

/-- Folding the area accumulator over a list is the sum of the mapped
areas, for any starting total. -/
theorem foldl_add_map_sum (f : Nat → ℚ) (l : List Nat) (init : ℚ) :
    l.foldl (fun t i => t + f i) init = init + (l.map f).sum := by
  induction l generalizing init with
  | nil => simp
  | cons a t ih => simp [ih, add_assoc]

/-- The scenario state after adding `Room("Kitchen", 0, 0, 10, 10)` through
the add-room dialog. -/
def kitchenAdded : AppState :=
  prompt_add_room_precise emptyState (some ⟨"Kitchen", 0, 0, 10, 10⟩)

/-- The scenario state after editing the kitchen's width to 5 through the
properties dialog. -/
def kitchenEdited : AppState :=
  prompt_edit_room_properties kitchenAdded 0 (.submitted ⟨"Kitchen", 0, 0, 5, 10⟩)

/-- C7: the total the `draw_blueprint` loop displays equals
`Σ max(0.1, w) * max(0.1, h)` over the rooms of `house` in every state
(hence after every commit, undo and redo, each of which redraws), and on
the concrete scenario it reads 100 after adding the 10×10 kitchen, 50
after editing its width to 5, and 100 again after undo. -/
theorem total_area_spec :
    (∀ s : AppState, draw_total_sqft s =
      (s.house.map (fun i =>
        max (1/10) (s.shapes i).width * max (1/10) (s.shapes i).height)).sum) ∧
    draw_total_sqft kitchenAdded = 100 ∧
    draw_total_sqft kitchenEdited = 50 ∧
    draw_total_sqft (undo kitchenEdited) = 100 := by
  have hgen : ∀ s : AppState, draw_total_sqft s =
      (s.house.map (fun i =>
        max (1/10) (s.shapes i).width * max (1/10) (s.shapes i).height)).sum := by
    intro s
    rw [draw_total_sqft, foldl_add_map_sum, zero_add]
  have hK : kitchenAdded.shapes 0 = ⟨"Kitchen", 0, 0, 10, 10⟩ := by
    simp [kitchenAdded, prompt_add_room_precise, log_action, emptyState]
  have hedit : kitchenEdited =
      log_action
        { kitchenAdded with
            shapes := Function.update kitchenAdded.shapes 0 ⟨"Kitchen", 0, 0, 5, 10⟩ }
        (.edit_room 0 ⟨"Kitchen", 0, 0, 10, 10⟩ ⟨"Kitchen", 0, 0, 5, 10⟩) := by
    rw [kitchenEdited, prompt_edit_room_properties]
    rw [hK]
    norm_num [ShapeState.mk.injEq]
  refine ⟨hgen, ?_, ?_, ?_⟩
  · rw [hgen]
    simp [kitchenAdded, prompt_add_room_precise, log_action, emptyState]
    norm_num
  · rw [hgen, hedit]
    simp [log_action, kitchenAdded, prompt_add_room_precise, emptyState]
    norm_num
  · rw [hgen, hedit]
    simp [undo, log_action, applyUndo, Function.update_idem, kitchenAdded,
      prompt_add_room_precise, emptyState]
    norm_num

/-- C8: releasing a `drawing_room` drag commits a room exactly when the
ghost's absolute width and height both exceed 1 and the prompted name is
non-empty; the committed room is the normalised rectangle (minimum corner
origin, positive dimensions) appended to `house` with a single `add_room`
entry; a too-small ghost, a cancelled prompt or an empty name leave
`house` and the history untouched; and the ghost is discarded in every
case. -/
theorem on_release_drawing_spec (s : AppState) (anchor : ℚ × ℚ)
    (sx sy w h : ℚ) (nameResult : Option String)
    (hact : s.current_action = some .drawing_room)
    (hghost : s.ghost_rect = some (anchor, w, h))
    (hstart : s.action_start_xy = some (sx, sy)) :
    ((|w| > 1 ∧ |h| > 1) → ∀ nm, nameResult = some nm → nm ≠ "" →
        (on_release s nameResult).house = s.house ++ [s.nextId] ∧
        (on_release s nameResult).shapes s.nextId = normalized_room nm sx sy w h ∧
        0 < (normalized_room nm sx sy w h).width ∧
        0 < (normalized_room nm sx sy w h).height ∧
        (on_release s nameResult).history =
          Entry.add_room s.nextId (normalized_room nm sx sy w h) :: s.history ∧
        (on_release s nameResult).furnishings = s.furnishings) ∧
    (¬(|w| > 1 ∧ |h| > 1) →
        (on_release s nameResult).house = s.house ∧
        (on_release s nameResult).history = s.history ∧
        (on_release s nameResult).shapes = s.shapes) ∧
    ((nameResult = none ∨ nameResult = some "") →
        (on_release s nameResult).house = s.house ∧
        (on_release s nameResult).history = s.history) ∧
    (on_release s nameResult).ghost_rect = none := by
  refine ⟨?_, ?_, ?_, ?_⟩
  · rintro hbig nm rfl hnm
    have hwz : w ≠ 0 := by
      intro h0; rw [h0] at hbig; norm_num at hbig
    have hhz : h ≠ 0 := by
      intro h0; rw [h0] at hbig; norm_num at hbig
    refine ⟨?_, ?_, ?_, ?_, ?_, ?_⟩ <;>
      simp [on_release, hact, hghost, hstart, log_action, if_pos hbig, if_pos hnm,
        Function.update, normalized_room, abs_pos, hwz, hhz]
  · intro hsmall
    refine ⟨?_, ?_, ?_⟩ <;>
      simp [on_release, hact, hghost, hstart, if_neg hsmall]
  · rintro (rfl | rfl)
    · simp only [on_release, hact, hghost, hstart]
      split_ifs <;> exact ⟨rfl, rfl⟩
    · simp only [on_release, hact, hghost, hstart]
      split_ifs with h1 h2
      · exact absurd rfl h2
      · exact ⟨rfl, rfl⟩
      · exact ⟨rfl, rfl⟩
  · simp only [on_release, hact, hghost, hstart]

/-- C9: each destructive operation asks for confirmation before touching
anything, and a declined dialog leaves the whole state — collections,
history, redo stack and selection included — exactly as it was:
`delete_selected_item` with a `No` answer, `clear_blueprint` in its
confirming mode with a `No` answer, and `generate_random_layout` over
existing content with a `No` answer, are all the identity. -/
theorem declined_confirmation_leaves_state (s : AppState)
    (lr_w lr_h k_w k_h k_y mbr_w mbr_h mbr_x b_w b_h : ℚ) :
    delete_selected_item s false = s ∧
    clear_blueprint s true false = s ∧
    (s.house ≠ [] →
      generate_random_layout s false lr_w lr_h k_w k_h k_y mbr_w mbr_h mbr_x b_w b_h
        = s) := by
  refine ⟨?_, ?_, ?_⟩
  · unfold delete_selected_item
    cases s.selected_item <;> simp
  · simp [clear_blueprint]
  · intro hne
    simp [generate_random_layout, hne]

/-- C4: copying a selected room A snapshots its state; pasting then appends
exactly one new room named `A(copy)` with A's width and height, positioned
at the centre of the current view bounds, and commits a single `add_room`
entry; undoing removes just that pasted room, leaving A's state and the
original membership of both collections unchanged. -/
theorem copy_paste_undo_spec (s : AppState) (a : Nat)
    (hsel : s.selected_item = some a) (hroom : s.isRoom a = true)
    (hmem : a ∈ s.house) (hfresh : s.nextId ∉ s.house) :
    (copy_room s).clipboard = some (s.shapes a) ∧
    (paste_room (copy_room s)).house = s.house ++ [s.nextId] ∧
    (paste_room (copy_room s)).shapes s.nextId =
      ⟨(s.shapes a).name ++ "(copy)", (s.xlim.1 + s.xlim.2) / 2,
        (s.ylim.1 + s.ylim.2) / 2, (s.shapes a).width, (s.shapes a).height⟩ ∧
    (paste_room (copy_room s)).history =
      Entry.add_room s.nextId
        ⟨(s.shapes a).name ++ "(copy)", (s.xlim.1 + s.xlim.2) / 2,
          (s.ylim.1 + s.ylim.2) / 2, (s.shapes a).width, (s.shapes a).height⟩
        :: s.history ∧
    (undo (paste_room (copy_room s))).house = s.house ∧
    (undo (paste_room (copy_room s))).furnishings = s.furnishings ∧
    (undo (paste_room (copy_room s))).shapes a = s.shapes a ∧
    (undo (paste_room (copy_room s))).history = s.history := by
  have hane : a ≠ s.nextId := fun h => hfresh (h ▸ hmem)
  have hcopy : copy_room s = { s with clipboard := some (s.shapes a) } := by
    simp [copy_room, hsel, hroom]
  have herase : (s.house ++ [s.nextId]).erase s.nextId = s.house := by
    rw [List.erase_append_right _ hfresh]
    simp
  refine ⟨by simp [hcopy], ?_, ?_, ?_, ?_, ?_, ?_, ?_⟩ <;>
    simp [hcopy, paste_room, select_item, log_action, undo, applyUndo,
      Function.update, herase, hane]

/-- Two overlapping rooms A (added first) and B: `house = [0, 1]`, both
contain the point `(5, 5)`, and room A (identity 0) is selected. -/
def overlapDemo : AppState :=
  { emptyState with
    shapes := fun i => if i = 0 then ⟨"A", 0, 0, 10, 10⟩ else ⟨"B", 0, 0, 10, 10⟩,
    isRoom := fun _ => true,
    house := [0, 1],
    selected_item := some 0,
    nextId := 2 }

/-- C10: undoing a `delete_room`/`delete_obj` entry re-inserts the deleted
item by appending it at the tail of `house`/`furnishings` (restoring its
`before_state`), so a shape deleted from any non-last position does not
get its original insertion position back — demonstrated concretely: with
overlapping rooms A then B, `find_item_at (5, 5)` first answers B, but
after deleting A and undoing, A sits at the tail and `find_item_at`
answers A. -/
theorem undo_delete_append_semantics (s : AppState) :
    (∀ i st rest, s.history = Entry.delete_room i st :: rest →
        (undo s).house = s.house ++ [i] ∧ (undo s).shapes i = st) ∧
    (∀ i st rest, s.history = Entry.delete_obj i st :: rest →
        (undo s).furnishings = s.furnishings ++ [i] ∧ (undo s).shapes i = st) ∧
    (∀ i b l1 l2, s.selected_item = some i → s.isRoom i = true →
        s.house = l1 ++ i :: b :: l2 → i ∉ l1 → b ≠ i →
        (undo (delete_selected_item s true)).house = (l1 ++ b :: l2) ++ [i] ∧
        (undo (delete_selected_item s true)).house ≠ s.house) ∧
    (find_item_at overlapDemo 5 5 = some 1 ∧
     find_item_at (undo (delete_selected_item overlapDemo true)) 5 5 = some 0) := by
  refine ⟨?_, ?_, ?_, ?_, ?_⟩
  · intro i st rest hh
    simp [undo, hh, applyUndo, Function.update]
  · intro i st rest hh
    simp [undo, hh, applyUndo, Function.update]
  · intro i b l1 l2 hsel hroom hhouse hnotl1 hbi
    have herase : s.house.erase i = l1 ++ b :: l2 := by
      rw [hhouse, List.erase_append_right _ hnotl1, List.erase_cons_head]
    have hdel : delete_selected_item s true =
        select_item
          (log_action { s with house := l1 ++ b :: l2 }
            (.delete_room i (s.shapes i))) none := by
      simp [delete_selected_item, hsel, hroom, herase]
    constructor
    · rw [hdel]
      simp [select_item, log_action, undo, applyUndo]
    · rw [hdel]
      simp only [select_item, log_action, undo, applyUndo]
      intro heq
      rw [hhouse] at heq
      simp only [List.append_assoc, List.cons_append, List.nil_append] at heq
      have htail := List.append_cancel_left heq
      rw [List.cons.injEq] at htail
      exact hbi htail.1
  · norm_num [find_item_at_eq, overlapDemo, emptyState, contains]
  · norm_num [find_item_at_eq, overlapDemo, emptyState, delete_selected_item,
      select_item, log_action, undo, applyUndo, Function.update, contains]

/-- The observable state named by the round-trip claim: every shape's
state, the membership (with multiplicity) of `house` and of
`furnishings`, and both history stacks.  (List order is *not* part of
it: undoing a delete re-appends at the tail, see
`undo_delete_append_semantics`.) -/
def ObsEq (s t : AppState) : Prop :=
  s.shapes = t.shapes ∧ s.house.Perm t.house ∧ s.furnishings.Perm t.furnishings ∧
  s.history = t.history ∧ s.redo_stack = t.redo_stack

/-- Coherence of the top undo-stack entry with the current state — the
invariant `log_action`, `undo` and `redo` maintain for the entry most
recently applied forward: an added item is present in its collection, a
deleted item's object still carries the logged `before_state`, an edited
item currently carries the logged `after_state`. -/
def entryOKForUndo (s : AppState) : Entry → Prop
  | .add_room i _ => i ∈ s.house
  | .delete_room i st => s.shapes i = st
  | .edit_room i _ afterSt => s.shapes i = afterSt
  | .add_obj i _ => i ∈ s.furnishings
  | .delete_obj i st => s.shapes i = st
  | .edit_obj i _ afterSt => s.shapes i = afterSt

/-- Coherence of the top redo-stack entry with the current state — the
invariant holding for an entry most recently undone: a to-be-re-deleted
item is present in its collection with its logged `before_state`, an
edited item currently carries the logged `before_state`. -/
def entryOKForRedo (s : AppState) : Entry → Prop
  | .add_room _ _ => True
  | .delete_room i st => i ∈ s.house ∧ s.shapes i = st
  | .edit_room i beforeSt _ => s.shapes i = beforeSt
  | .add_obj _ _ => True
  | .delete_obj i st => i ∈ s.furnishings ∧ s.shapes i = st
  | .edit_obj i beforeSt _ => s.shapes i = beforeSt

/-- Erasing an element of a list and re-appending it at the tail is a
permutation of the original list. -/
theorem perm_erase_append {a : Nat} {l : List Nat} (h : a ∈ l) :
    (l.erase a ++ [a]).Perm l :=
  (List.perm_append_singleton a (l.erase a)).trans (List.perm_cons_erase h).symm

/-- Appending an element at the tail and erasing its first occurrence is a
permutation of the original list. -/
theorem perm_append_erase (a : Nat) (l : List Nat) :
    ((l ++ [a]).erase a).Perm l := by
  by_cases h : a ∈ l
  · rw [List.erase_append_left _ h]
    exact perm_erase_append h
  · rw [List.erase_append_right _ h, List.erase_cons_head]
    simp

/-- C1: for a coherent top entry of either stack — of any of the six kinds
— `undo(); redo()` and `redo(); undo()` both restore the exact prior
observable state: all shape states, the membership of `house` and
`furnishings`, and both stacks. -/
theorem undo_redo_roundtrip (s : AppState) :
    (∀ e rest, s.history = e :: rest → entryOKForUndo s e →
        ObsEq (redo (undo s)) s) ∧
    (∀ e rest, s.redo_stack = e :: rest → entryOKForRedo s e →
        ObsEq (undo (redo s)) s) := by
  constructor
  · intro e rest hh hok
    cases e <;>
      refine ⟨?_, ?_, ?_, ?_, ?_⟩ <;>
      simp only [undo, hh, applyUndo, redo, applyRedo] <;>
      first
        | exact List.Perm.refl _
        | exact perm_erase_append hok
        | exact perm_append_erase _ _
        | rw [← hok, Function.update_eq_self]
        | rw [Function.update_idem, ← hok, Function.update_eq_self]
  · intro e rest hr hok
    cases e <;>
      refine ⟨?_, ?_, ?_, ?_, ?_⟩ <;>
      simp only [redo, hr, applyRedo, undo, applyUndo] <;>
      first
        | exact List.Perm.refl _
        | exact perm_erase_append hok.1
        | exact perm_append_erase _ _
        | rw [← hok, Function.update_eq_self]
        | rw [← hok.2, Function.update_eq_self]
        | rw [Function.update_idem, ← hok, Function.update_eq_self]

/-! ### Witnesses: concrete instantiations discharging each theorem's
hypotheses -/

/-- A one-room state: room A `(1, 2, 7, 8)` with identity 0 is in `house`
and selected; the next fresh identity is 1. -/
def roomADemo : AppState :=
  { emptyState with
    shapes := fun _ => ⟨"A", 1, 2, 7, 8⟩,
    isRoom := fun _ => true,
    house := [0],
    selected_item := some 0,
    nextId := 1 }

/-- A state whose top history entry is an `edit_room` of room 0 from
width 10 to width 5, with the room currently carrying the after-state. -/
def editDoneDemo : AppState :=
  { emptyState with
    shapes := fun _ => ⟨"K", 0, 0, 5, 10⟩,
    isRoom := fun _ => true,
    house := [0],
    history := [Entry.edit_room 0 ⟨"K", 0, 0, 10, 10⟩ ⟨"K", 0, 0, 5, 10⟩],
    nextId := 1 }

/-- A state whose top redo entry is that same `edit_room`, with the room
currently carrying the before-state (i.e. just after an undo). -/
def editUndoneDemo : AppState :=
  { emptyState with
    shapes := fun _ => ⟨"K", 0, 0, 10, 10⟩,
    isRoom := fun _ => true,
    house := [0],
    redo_stack := [Entry.edit_room 0 ⟨"K", 0, 0, 10, 10⟩ ⟨"K", 0, 0, 5, 10⟩],
    nextId := 1 }

/-- A room and two overlapping furnishings (identities 1 then 2, both
containing `(4, 4)`). -/
def findDemo : AppState :=
  { emptyState with
    shapes := fun i =>
      if i = 0 then ⟨"R", 0, 0, 10, 10⟩
      else if i = 1 then ⟨"T", 2, 2, 4, 4⟩
      else ⟨"U", 3, 3, 4, 4⟩,
    isRoom := fun i => i = 0,
    house := [0],
    furnishings := [1, 2],
    nextId := 3 }

/-- An in-progress `drawing_room` drag anchored at the origin whose ghost
has signed width −3 and height 4. -/
def drawDemo : AppState :=
  { emptyState with
    current_action := some .drawing_room,
    action_start_xy := some (0, 0),
    ghost_rect := some ((0, 0), -3, 4) }

/-- A state with `delete_room 0` on top of the history (room 0 just
deleted while carrying state `("A", 0, 0, 10, 10)`). -/
def deletedDemo : AppState :=
  { emptyState with
    shapes := fun _ => ⟨"A", 0, 0, 10, 10⟩,
    history := [Entry.delete_room 0 ⟨"A", 0, 0, 10, 10⟩],
    nextId := 1 }

/-- C1 witness: the round trip at two concrete coherent states, one per
direction. -/
theorem undo_redo_roundtrip_witness :
    ObsEq (redo (undo editDoneDemo)) editDoneDemo ∧
    ObsEq (undo (redo editUndoneDemo)) editUndoneDemo :=
  ⟨(undo_redo_roundtrip editDoneDemo).1 _ _ rfl rfl,
   (undo_redo_roundtrip editUndoneDemo).2 _ _ rfl rfl⟩

/-- C3 witness: a right-edge drag anchors the left edge, and a left-edge
drag that stays 1 unit inside the right edge anchors the right edge. -/
theorem resize_motion_amended_witness :
    ((resize_motion ⟨"A", 0, 0, 10, 10⟩ .right 12 0).x = 0 ∧
      (resize_motion ⟨"A", 0, 0, 10, 10⟩ .right 12 0).width = max 1 (12 - 0)) ∧
    (resize_motion ⟨"A", 0, 0, 10, 10⟩ .left 2 0).x +
        (resize_motion ⟨"A", 0, 0, 10, 10⟩ .left 2 0).width = 0 + 10 := by
  constructor
  · exact (resize_motion_amended ⟨"A", 0, 0, 10, 10⟩ .right 12 0).1 rfl
  · have h := ((resize_motion_amended ⟨"A", 0, 0, 10, 10⟩ .left 2 0).2.1 rfl).2.2
    simpa using h (by norm_num)

/-- C4 witness: copy/paste/undo on the one-room state restores membership
and room A's state. -/
theorem copy_paste_undo_witness :
    (undo (paste_room (copy_room roomADemo))).house = roomADemo.house ∧
    (undo (paste_room (copy_room roomADemo))).shapes 0 = roomADemo.shapes 0 :=
  ⟨(copy_paste_undo_spec roomADemo 0 rfl rfl (by simp [roomADemo, emptyState])
      (by simp [roomADemo, emptyState])).2.2.2.2.1,
   (copy_paste_undo_spec roomADemo 0 rfl rfl (by simp [roomADemo, emptyState])
      (by simp [roomADemo, emptyState])).2.2.2.2.2.2.1⟩

/-- C5 witness: of the two overlapping furnishings containing `(4, 4)`,
the most recently added one (identity 2) is returned. -/
theorem find_item_at_witness : find_item_at findDemo 4 4 = some 2 :=
  (find_item_at_spec findDemo 4 4).2.2.2.1 [1] 2 rfl
    (by norm_num [findDemo, emptyState, contains])

/-- C6 witness: a point near both the top and the left boundary of a
10×10 room resolves to the `top-left` corner handle. -/
theorem resize_handle_corner_witness :
    get_resize_handle ⟨"A", 0, 0, 10, 10⟩ 1 9 5 = some .topLeft :=
  (resize_handle_corner_priority ⟨"A", 0, 0, 10, 10⟩ 1 9 5).2.1
    (by norm_num) (by norm_num)

/-- C8 witness: releasing the 3×4 ghost (drawn leftwards) with name
`"Den"` appends the normalised room under the fresh identity and discards
the ghost. -/
theorem on_release_drawing_witness :
    (on_release drawDemo (some "Den")).house =
        drawDemo.house ++ [drawDemo.nextId] ∧
    (on_release drawDemo (some "Den")).ghost_rect = none :=
  ⟨((on_release_drawing_spec drawDemo (0, 0) 0 0 (-3) 4 (some "Den")
        rfl rfl rfl).1 (by norm_num) "Den" rfl (by decide)).1,
   (on_release_drawing_spec drawDemo (0, 0) 0 0 (-3) 4 (some "Den")
        rfl rfl rfl).2.2.2⟩

/-- C9 witness: declining each confirmation over the populated one-room
state leaves it untouched. -/
theorem declined_confirmation_witness :
    delete_selected_item roomADemo false = roomADemo ∧
    generate_random_layout roomADemo false 1 2 3 4 5 6 7 8 9 10 = roomADemo :=
  ⟨(declined_confirmation_leaves_state roomADemo 1 2 3 4 5 6 7 8 9 10).1,
   (declined_confirmation_leaves_state roomADemo 1 2 3 4 5 6 7 8 9 10).2.2
      (by simp [roomADemo, emptyState])⟩

/-- C10 witness: undoing the pending `delete_room 0` appends identity 0 at
the tail of `house` and restores its logged state; and on the overlapping
demo the non-last deletion changes the list. -/
theorem undo_delete_append_witness :
    ((undo deletedDemo).house = deletedDemo.house ++ [0] ∧
      (undo deletedDemo).shapes 0 = ⟨"A", 0, 0, 10, 10⟩) ∧
    ((undo (delete_selected_item overlapDemo true)).house = ([] ++ [1]) ++ [0] ∧
      (undo (delete_selected_item overlapDemo true)).house ≠ overlapDemo.house) :=
  ⟨(undo_delete_append_semantics deletedDemo).1 0 ⟨"A", 0, 0, 10, 10⟩ [] rfl,
   (undo_delete_append_semantics overlapDemo).2.2.1 0 1 [] [] rfl rfl rfl
      (by simp) (by decide)⟩

end Modelum
